import Mathlib

set_option autoImplicit false

/-
Shallow embedding of the entropy object store (src/entropy) for verifying the
specification's claims.  Python byte strings are lists of naturals, timestamps
are naturals (seconds), and Deferred-style fallible operations are `Except`.
The concrete hashlib `sha256` digest function lives outside the repository, so
every definition that hashes content is parametric in a digest function
`HashFn`; the registry in hash.py maps the name "sha256" to it.
-/

namespace Entropy

/-- Byte strings (Python `str` payloads) are modelled as lists of naturals. -/
abbrev Bytes := List Nat

/-- A hash algorithm's behaviour, as used by the code: applied to a byte
string it yields the hex digest (the code's `hashFunc(content).hexdigest()`). -/
abbrev HashFn := Bytes → String

/-- The error taxonomy of entropy/errors.py, plus the generic Python errors
the code can raise (`ValueError` from tuple unpacking, `TypeError` from
calling a non-callable, `AttributeError` from attribute access on None,
`RuntimeError` from the missing-scheduler check).  `backendError` stands for
an arbitrary failure coming out of a remote backend. -/
inductive Err where
  | unknownHashAlgorithm (algo : String)
  | nonexistentObject (objectId : String)
  | corruptObject
  | notImplementedError
  | typeError
  | valueError
  | attributeError
  | runtimeError
  | noGoodCopies (objectId : String)
  | unexpectedDigest (objectId : String)
  | backendError (code : Nat)
  deriving Repr, DecidableEq

/-- Result of hash.py's `getHash`: either a hasher found in the registry, or —
faithfully to the source, which says `return UnknownHashAlgorithm(algo)` and
not `raise` — the exception instance returned as an ordinary value. -/
inductive GetHashResult where
  | fn (f : HashFn)
  | errValue (e : Err)

/-- Dictionary lookup over the `_hashes` registry association list. -/
def lookupHash : List (String × HashFn) → String → Option HashFn
  | [], _ => none
  | (k, v) :: rest, algo => if k = algo then some v else lookupHash rest algo

/-- The `_hashes` registry of hash.py: exactly one entry, "sha256". -/
def hashRegistry (sha256 : HashFn) : List (String × HashFn) :=
  [("sha256", sha256)]

/-- hash.py `getHash`: look the name up in `_hashes`; on `KeyError` the code
RETURNS (does not raise) `UnknownHashAlgorithm(algo)`. -/
def getHash (sha256 : HashFn) (algo : String) : GetHashResult :=
  match lookupHash (hashRegistry sha256) algo with
  | some f => .fn f
  | none => .errValue (.unknownHashAlgorithm algo)

/-- store.py `ImmutableObject`: an indexed row plus the on-disk blob (the
blob's current bytes are inlined as `content`).  `storeID` is the axiom store
ordinal id used by the migration engine. -/
structure ImmutableObject where
  hash : String
  contentDigest : String
  content : Bytes
  contentType : String
  created : Nat
  storeID : Nat
  deriving Repr, DecidableEq

/-- store.py `ImmutableObject.objectId`: `hash + ":" + contentDigest`. -/
def ImmutableObject.objectId (o : ImmutableObject) : String :=
  o.hash ++ ":" ++ o.contentDigest

/-- store.py `_PendingUpload`: marker row for a pending upload to a backend
store (the backend is an opaque item reference, modelled by a number). -/
structure PendingUploadRow where
  objectId : String
  backend : Nat
  scheduled : Nat
  deriving Repr, DecidableEq

/-- store.py `PendingMigration`: tracking row for one object's migration. -/
structure PendingMigrationRow where
  obj : ImmutableObject
  lastFailure : Option String
  deriving Repr, DecidableEq

/-- The axiom `Store` as the operations use it: the `ImmutableObject` table in
creation order, the next ordinal id, the `IBackendStore` powerups (opaque
references), whether an `IUploadScheduler` powerup is configured, and the
`_PendingUpload` / `PendingMigration` tables. -/
structure StoreState where
  objects : List ImmutableObject
  nextID : Nat
  backendStores : List Nat
  hasUploadScheduler : Bool
  pendingUploads : List PendingUploadRow
  pendingMigrations : List PendingMigrationRow
  deriving Repr, DecidableEq

/-- store.py `ContentStore`: the only persisted attribute is the hash
algorithm name (default "sha256"). -/
structure ContentStore where
  hash : String := "sha256"
  deriving Repr, DecidableEq

/-- Axiom `findUnique` over the `(hash, contentDigest)` key: first row whose
key matches (the table keeps at most one). -/
def findUniqueObject (h d : String) : List ImmutableObject → Option ImmutableObject
  | [] => none
  | o :: rest =>
    if o.hash = h ∧ o.contentDigest = d then some o
    else findUniqueObject h d rest

/-- Axiom `findUnique` followed by in-place mutation of the found row: returns
the updated table and the updated row, or none when no row matches. -/
def updateFirstObject (h d : String) (f : ImmutableObject → ImmutableObject) :
    List ImmutableObject → Option (List ImmutableObject × ImmutableObject)
  | [] => none
  | o :: rest =>
    if o.hash = h ∧ o.contentDigest = d then some (f o :: rest, f o)
    else
      match updateFirstObject h d f rest with
      | none => none
      | some (l, u) => some (o :: l, u)

/-- Python `objectId.split(u':', 1)` on the character list: the part before
the first colon and the rest; `none` when there is no colon (in which case the
code's two-name unpacking raises `ValueError`). -/
def splitColon1 : List Char → Option (List Char × List Char)
  | [] => none
  | c :: rest =>
    if c = ':' then some ([], rest)
    else
      match splitColon1 rest with
      | none => none
      | some (a, b) => some (c :: a, b)

/-- The scheduler loop at the end of `ContentStore._storeObject`: for each
`IBackendStore` powerup, raise `RuntimeError` if no upload scheduler is
configured, else create a `_PendingUpload` row scheduled now. -/
def scheduleUploads (st : StoreState) (obj : ImmutableObject) (now : Nat) :
    Except Err (StoreState × ImmutableObject) :=
  if st.backendStores ≠ [] ∧ ¬ st.hasUploadScheduler then .error .runtimeError
  else
    let uploads : List PendingUploadRow :=
      st.backendStores.map
        (fun b => { objectId := obj.objectId, backend := b, scheduled := now })
    .ok ({ st with pendingUploads := st.pendingUploads ++ uploads }, obj)

/-- store.py `ContentStore._storeObject`: reject non-empty metadata, digest
the content with `getHash(self.hash)` (calling the exception instance that
`getHash` returns for an unknown name raises `TypeError`), then either update
the existing `(hash, digest)` row in place (contentType, created, blob bytes)
or append a fresh row, and finally schedule one upload per backend store.  The
method is transacted, so an error leaves the state unchanged. -/
def ContentStore._storeObject (sha256 : HashFn) (cs : ContentStore) (st : StoreState)
    (content : Bytes) (contentType : String) (metadata : List (String × String))
    (created : Option Nat) (now : Nat) :
    Except Err (StoreState × ImmutableObject) :=
  if metadata ≠ [] then .error .notImplementedError
  else
    match getHash sha256 cs.hash with
    | .errValue _e => .error .typeError
    | .fn hashFn =>
      match updateFirstObject cs.hash (hashFn content)
          (fun o => { o with contentType := contentType, created := created.getD now,
                             content := content })
          st.objects with
      | some (objects2, obj) =>
          scheduleUploads { st with objects := objects2 } obj now
      | none =>
          scheduleUploads
            { st with
              objects := st.objects ++
                [{ hash := cs.hash, contentDigest := hashFn content, content := content,
                   contentType := contentType, created := created.getD now,
                   storeID := st.nextID }],
              nextID := st.nextID + 1 }
            { hash := cs.hash, contentDigest := hashFn content, content := content,
              contentType := contentType, created := created.getD now,
              storeID := st.nextID } now

/-- store.py `ContentStore.storeObject`: delegates to `_storeObject` and
returns the stored row's objectId.  The `objectId` argument is accepted but
never used by the implementation. -/
def ContentStore.storeObject (sha256 : HashFn) (cs : ContentStore) (st : StoreState)
    (content : Bytes) (contentType : String) (metadata : List (String × String))
    (created : Option Nat) (objectId : Option String) (now : Nat) :
    Except Err (StoreState × String) :=
  match ContentStore._storeObject sha256 cs st content contentType metadata created now with
  | .error e => .error e
  | .ok (st2, obj) => .ok (st2, obj.objectId)

/-- store.py `ContentStore.getObject`: split the id on the first colon (no
colon raises `ValueError` from the unpacking), look up the `(hash, digest)`
row, and raise `NonexistentObject(objectId)` when there is none. -/
def ContentStore.getObject (cs : ContentStore) (st : StoreState) (objectId : String) :
    Except Err ImmutableObject :=
  match splitColon1 objectId.toList with
  | none => .error .valueError
  | some (h, d) =>
    match findUniqueObject (String.mk h) (String.mk d) st.objects with
    | none => .error (.nonexistentObject objectId)
    | some obj => .ok obj

/-- store.py `LocalStoreMigration`: the migration bookkeeping row.  `source`
and `destination` are opaque item references (numbers); a `none` destination
marks a verification migration.  `current` starts at -1, so the ids are
integers. -/
structure Migration where
  source : Nat
  destination : Option Nat
  start : Int
  current : Int
  end_ : Int
  deriving Repr, DecidableEq

/-- Axiom `findFirst` sorted by `storeID` descending: the row with the
largest ordinal id (`storeID` values are unique in a store). -/
def findFirstMaxStoreID : List ImmutableObject → Option ImmutableObject
  | [] => none
  | o :: rest =>
    match findFirstMaxStoreID rest with
    | none => some o
    | some m => if m.storeID > o.storeID then some m else some o

/-- store.py `ContentStore.migrateTo`: read the newest object's `storeID`
unconditionally — when the store holds no objects `findFirst` gives None and
the attribute access raises `AttributeError` — and build the migration with
`start = 0`, `current = -1`, `end = latestObject.storeID`. -/
def ContentStore.migrateTo (cs : ContentStore) (st : StoreState)
    (sourceId : Nat) (destination : Option Nat) : Except Err Migration :=
  match findFirstMaxStoreID st.objects with
  | none => .error .attributeError
  | some latestObject =>
    .ok { source := sourceId, destination := destination, start := 0,
          current := -1, end_ := (latestObject.storeID : Int) }

/-- Axiom `findFirst` sorted by `storeID` ascending under the condition
`current < storeID AND storeID <= end`: the in-range row with the smallest
ordinal id. -/
def findFirstInRange (current end_ : Int) : List ImmutableObject → Option ImmutableObject
  | [] => none
  | o :: rest =>
    if current < (o.storeID : Int) ∧ (o.storeID : Int) ≤ end_ then
      match findFirstInRange current end_ rest with
      | none => some o
      | some m => if (o.storeID : Int) ≤ (m.storeID : Int) then some o else some m
    else findFirstInRange current end_ rest

/-- store.py `LocalStoreMigration._nextObject`: transactionally pick the next
in-range object, advance `current` to its `storeID` and create the
`PendingMigration` row; `none` when the range is exhausted. -/
def LocalStoreMigration._nextObject (st : StoreState) (m : Migration) :
    Option (StoreState × Migration × PendingMigrationRow) :=
  match findFirstInRange m.current m.end_ st.objects with
  | none => none
  | some obj =>
    let row : PendingMigrationRow := { obj := obj, lastFailure := none }
    some ({ st with pendingMigrations := st.pendingMigrations ++ [row] },
          { m with current := (obj.storeID : Int) }, row)

/-- The `iter(self._nextObject, None)` part of `LocalStoreMigration.run`:
repeatedly call `_nextObject` until it yields none (fuel-bounded; fuel equal
to the number of objects suffices). -/
def LocalStoreMigration.runEnqueue : Nat → StoreState → Migration → StoreState × Migration
  | 0, st, m => (st, m)
  | Nat.succ fuel, st, m =>
    match LocalStoreMigration._nextObject st m with
    | none => (st, m)
    | some (st2, m2, _row) => LocalStoreMigration.runEnqueue fuel st2 m2

/-- A content object held by a non-local backend, as `importObject` consumes
it: content bytes plus the mutable attributes copied into the local store. -/
structure RemoteObject where
  content : Bytes
  contentType : String
  metadata : List (String × String)
  created : Nat
  deriving Repr, DecidableEq

/-- store.py `ContentStore.importObject`: fetch the remote object's content
and store it locally via `_storeObject` with the remote object's contentType,
metadata and created time. -/
def ContentStore.importObject (sha256 : HashFn) (cs : ContentStore) (st : StoreState)
    (robj : RemoteObject) (now : Nat) : Except Err (StoreState × ImmutableObject) :=
  ContentStore._storeObject sha256 cs st robj.content robj.contentType
    robj.metadata (some robj.created) now

/-- Whether a backend response is a `NonexistentObject` failure — the only
error class trapped by `getSiblingObject`'s errback. -/
def isNonexistentResp : Except Err RemoteObject → Bool
  | .error (.nonexistentObject _) => true
  | _ => false

/-- What `getSiblingObject` does with one remote backend's `getObject`
response when the walk stops at it: import a retrieved object, surface any
non-`NonexistentObject` failure. -/
def siblingOutcome (sha256 : HashFn) (cs : ContentStore) (st : StoreState) (now : Nat) :
    Except Err RemoteObject → Except Err (StoreState × ImmutableObject)
  | .ok robj => ContentStore.importObject sha256 cs st robj now
  | .error e => .error e

/-- The errback chain of `ContentStore.getSiblingObject` walking the remaining
backends: each `NonexistentObject` failure moves to the next backend's
response, any other failure surfaces, a retrieved object is imported, and an
exhausted iterator raises `NonexistentObject(objectId)`.  The second component
counts the backends actually consulted. -/
def getSiblingLoop (sha256 : HashFn) (cs : ContentStore) (st : StoreState)
    (objectId : String) (now : Nat) :
    List (Except Err RemoteObject) → Except Err (StoreState × ImmutableObject) × Nat
  | [] => (.error (.nonexistentObject objectId), 0)
  | resp :: rest =>
    if isNonexistentResp resp then
      let r := getSiblingLoop sha256 cs st objectId now rest
      (r.1, r.2 + 1)
    else (siblingOutcome sha256 cs st now resp, 1)

/-- store.py `ContentStore.getSiblingObject`: try the local `getObject` first;
on `NonexistentObject` walk the `ISiblingStore` powerups then the
`IBackendStore` powerups in order (their would-be `getObject` responses are
passed as lists).  The second component counts remote backends consulted. -/
def ContentStore.getSiblingObject (sha256 : HashFn) (cs : ContentStore) (st : StoreState)
    (objectId : String) (now : Nat)
    (siblingStores backendStores : List (Except Err RemoteObject)) :
    Except Err (StoreState × ImmutableObject) × Nat :=
  match cs.getObject st objectId with
  | .ok obj => (.ok (st, obj), 0)
  | .error (.nonexistentObject _) =>
    getSiblingLoop sha256 cs st objectId now (siblingStores ++ backendStores)
  | .error e => (.error e, 0)

/-- One backend's copy of the object as `PendingMigration._verify` retrieves
it: the digest the backend reports for it, the mutable attributes, and the
actual bytes. -/
structure VerifyCopy where
  contentDigest : String
  contentType : String
  created : Nat
  content : Bytes
  deriving Repr, DecidableEq

/-- A repair issued by the verification protocol: a `storeObject` call against
one backend carrying the good copy's data and the expected objectId. -/
structure RepairCall where
  backend : Nat
  content : Bytes
  contentType : String
  created : Nat
  objectId : String
  deriving Repr, DecidableEq

/-- The `for backend, (obj, content) in zip(backends, cs)` loop of
`_verify.gotContents`: a missing copy (None) marks the backend corrupt; a
reported digest different from the expected one raises
`UnexpectedDigest(objectId)` at once; bytes hashing to the expected digest
make the first such copy the good copy; any other copy marks its backend
corrupt.  Accumulates the corrupt backends in order and the good copy. -/
def verifyLoop (hashFunc : HashFn) (expected objectId : String) :
    List (Nat × Option VerifyCopy) → List Nat → Option VerifyCopy →
    Except Err (List Nat × Option VerifyCopy)
  | [], corrupt, goodObj => .ok (corrupt, goodObj)
  | (b, none) :: rest, corrupt, goodObj =>
    verifyLoop hashFunc expected objectId rest (corrupt ++ [b]) goodObj
  | (b, some c) :: rest, corrupt, goodObj =>
    if c.contentDigest ≠ expected then .error (.unexpectedDigest objectId)
    else if hashFunc c.content = expected then
      match goodObj with
      | none => verifyLoop hashFunc expected objectId rest corrupt (some c)
      | some g => verifyLoop hashFunc expected objectId rest corrupt (some g)
    else verifyLoop hashFunc expected objectId rest (corrupt ++ [b]) goodObj

/-- The tail of `_verify.gotContents`: after the loop, no good copy raises
`NoGoodCopies(objectId)`; otherwise a repair `storeObject` call is issued for
every corrupt or missing backend with the good copy's content, contentType,
created time and the expected objectId. -/
def gotContents (hashFunc : HashFn) (expected objectId : String)
    (pairs : List (Nat × Option VerifyCopy)) : Except Err (List RepairCall) :=
  match verifyLoop hashFunc expected objectId pairs [] none with
  | .error e => .error e
  | .ok (_corrupt, none) => .error (.noGoodCopies objectId)
  | .ok (corrupt, some goodObj) =>
    .ok (corrupt.map (fun b =>
      { backend := b, content := goodObj.content, contentType := goodObj.contentType,
        created := goodObj.created, objectId := objectId }))

/-- The backends the verification must repair: those whose copy is missing or
whose bytes do not hash to the expected digest, in backend order. -/
def badBackends (hashFunc : HashFn) (expected : String)
    (pairs : List (Nat × Option VerifyCopy)) : List Nat :=
  pairs.filterMap (fun p =>
    match p.2 with
    | none => some p.1
    | some c => if hashFunc c.content = expected then none else some p.1)

/-- The first copy whose bytes hash to the expected digest, in backend
order. -/
def firstGoodCopy (hashFunc : HashFn) (expected : String) :
    List (Nat × Option VerifyCopy) → Option VerifyCopy
  | [] => none
  | (_b, none) :: rest => firstGoodCopy hashFunc expected rest
  | (_b, some c) :: rest =>
    if hashFunc c.content = expected then some c
    else firstGoodCopy hashFunc expected rest

/-- store.py `_PendingUpload._nextAttempt`: the next attempt is scheduled two
minutes (120 seconds) after the CURRENT time. -/
def _PendingUpload._nextAttempt (now : Nat) : Nat := now + 120

/-- The callback chain inside `attemptUpload` up to the final callbacks pair:
load the object from the local content store, then run the backend's
`storeObject` (whose would-be outcome is passed in). -/
def uploadAttemptOutcome (cs : ContentStore) (st : StoreState) (u : PendingUploadRow)
    (backendResult : Except Err String) : Except Err Unit := do
  let _obj ← cs.getObject st u.objectId
  let _oid ← backendResult
  pure ()

/-- store.py `_PendingUpload.attemptUpload`: on success delete the row; on
failure log, reschedule the row at `_nextAttempt()` (now + 2 minutes) and
consume the failure, so the returned Deferred fires with success either way.
The first component is the row's new state (none = deleted). -/
def _PendingUpload.attemptUpload (cs : ContentStore) (st : StoreState)
    (u : PendingUploadRow) (backendResult : Except Err String) (now : Nat) :
    Option PendingUploadRow × Except Err Unit :=
  match uploadAttemptOutcome cs st u backendResult with
  | .ok _ => (none, .ok ())
  | .error _f => (some { u with scheduled := _PendingUpload._nextAttempt now }, .ok ())

/-- The text persisted in `lastFailure`: stands for `f.getTraceback()`. -/
def failureText : Err → String
  | .unknownHashAlgorithm algo => "UnknownHashAlgorithm: " ++ algo
  | .nonexistentObject objectId => "NonexistentObject: " ++ objectId
  | .corruptObject => "CorruptObject"
  | .notImplementedError => "NotImplementedError"
  | .typeError => "TypeError"
  | .valueError => "ValueError"
  | .attributeError => "AttributeError"
  | .runtimeError => "RuntimeError"
  | .noGoodCopies objectId => "NoGoodCopies: " ++ objectId
  | .unexpectedDigest objectId => "UnexpectedDigest: " ++ objectId
  | .backendError code => "Error " ++ toString code

/-- store.py `PendingMigration.attemptMigration`: run `_migrate` (its outcome
is passed in); on success delete the tracking row, on failure log, persist the
traceback text in `lastFailure` and consume the failure, so the returned
Deferred fires with success either way.  The first component is the row's new
state (none = deleted). -/
def PendingMigration.attemptMigration (row : PendingMigrationRow)
    (migrateResult : Except Err Unit) : Option PendingMigrationRow × Except Err Unit :=
  match migrateResult with
  | .ok _ => (none, .ok ())
  | .error f => (some { row with lastFailure := some (failureText f) }, .ok ())

/-! Helper lemmas about the embedded operations. -/

theorem string_mk_data (s : String) : String.mk s.data = s := rfl

theorem string_toList_eq_data (s : String) : s.toList = s.data := rfl

theorem toList_id_append (hash d : String) :
    (hash ++ ":" ++ d).toList = hash.toList ++ ':' :: d.toList := by
  show ((hash ++ ":") ++ d).data = hash.data ++ ':' :: d.data
  rw [String.data_append, String.data_append]
  simp

theorem splitColon1_eq_none (l : List Char) (h : ':' ∉ l) : splitColon1 l = none := by
  induction l with
  | nil => rfl
  | cons c rest ih =>
    have hc : c ≠ ':' := fun hc => h (hc ▸ List.mem_cons_self c rest)
    have hr : ':' ∉ rest := fun hm => h (List.mem_cons_of_mem c hm)
    simp [splitColon1, hc, ih hr]

theorem splitColon1_append (l1 l2 : List Char) (h : ':' ∉ l1) :
    splitColon1 (l1 ++ ':' :: l2) = some (l1, l2) := by
  induction l1 with
  | nil => simp [splitColon1]
  | cons c rest ih =>
    have hc : c ≠ ':' := fun hc => h (hc ▸ List.mem_cons_self c rest)
    have hr : ':' ∉ rest := fun hm => h (List.mem_cons_of_mem c hm)
    simp [splitColon1, hc, ih hr]

theorem getHash_fn_elim (s : HashFn) (algo : String) (f : HashFn)
    (h : getHash s algo = .fn f) : algo = "sha256" ∧ f = s := by
  unfold getHash lookupHash hashRegistry at h
  by_cases hc : "sha256" = algo
  · subst hc; simp at h; exact ⟨rfl, h.symm⟩
  · simp [lookupHash, hc] at h

theorem findUniqueObject_some_key (h d : String) (l : List ImmutableObject)
    (o : ImmutableObject) (hf : findUniqueObject h d l = some o) :
    o.hash = h ∧ o.contentDigest = d := by
  induction l with
  | nil => cases hf
  | cons x rest ih =>
    by_cases hc : x.hash = h ∧ x.contentDigest = d
    · simp [findUniqueObject, hc] at hf; exact hf ▸ hc
    · simp only [findUniqueObject, if_neg hc] at hf; exact ih hf

theorem updateFirstObject_none (h d : String) (f : ImmutableObject → ImmutableObject)
    (l : List ImmutableObject) (hn : updateFirstObject h d f l = none) :
    findUniqueObject h d l = none := by
  induction l with
  | nil => rfl
  | cons o rest ih =>
    by_cases hc : o.hash = h ∧ o.contentDigest = d
    · simp [updateFirstObject, hc] at hn
    · simp only [updateFirstObject, if_neg hc] at hn
      simp only [findUniqueObject, if_neg hc]
      cases hrec : updateFirstObject h d f rest with
      | none => exact ih hrec
      | some p => rw [hrec] at hn; cases hn

theorem findUniqueObject_append_one (h d : String) (l : List ImmutableObject)
    (o : ImmutableObject) (hn : findUniqueObject h d l = none)
    (ho : o.hash = h ∧ o.contentDigest = d) :
    findUniqueObject h d (l ++ [o]) = some o := by
  induction l with
  | nil => simp [findUniqueObject, ho]
  | cons x rest ih =>
    by_cases hc : x.hash = h ∧ x.contentDigest = d
    · simp [findUniqueObject, hc] at hn
    · simp only [findUniqueObject, if_neg hc] at hn ⊢
      exact ih hn

theorem updateFirstObject_some (h d : String) (f : ImmutableObject → ImmutableObject)
    (hf : ∀ x, (f x).hash = x.hash ∧ (f x).contentDigest = x.contentDigest)
    (l : List ImmutableObject) :
    ∀ l2 u, updateFirstObject h d f l = some (l2, u) →
      findUniqueObject h d l2 = some u ∧ ∃ x, u = f x := by
  induction l with
  | nil => intro l2 u hu; cases hu
  | cons o rest ih =>
    intro l2 u hu
    by_cases hc : o.hash = h ∧ o.contentDigest = d
    · simp only [updateFirstObject, if_pos hc] at hu
      obtain ⟨h1, h2⟩ := Prod.mk.injEq .. ▸ Option.some.injEq .. ▸ hu
      subst h1; subst h2
      constructor
      · have : (f o).hash = h ∧ (f o).contentDigest = d :=
          ⟨(hf o).1.trans hc.1, (hf o).2.trans hc.2⟩
        simp [findUniqueObject, this]
      · exact ⟨o, rfl⟩
    · simp only [updateFirstObject, if_neg hc] at hu
      cases hrec : updateFirstObject h d f rest with
      | none => rw [hrec] at hu; cases hu
      | some p =>
        rw [hrec] at hu
        obtain ⟨h1, h2⟩ := Prod.mk.injEq .. ▸ Option.some.injEq .. ▸ hu
        obtain ⟨hfind, x, hx⟩ := ih p.1 p.2 (by rw [hrec])
        subst h1; subst h2
        refine ⟨?_, x, hx⟩
        simp only [findUniqueObject, if_neg hc]
        exact hfind

theorem scheduleUploads_ok (st : StoreState) (obj : ImmutableObject) (now : Nat)
    (st2 : StoreState) (obj2 : ImmutableObject)
    (h : scheduleUploads st obj now = .ok (st2, obj2)) :
    obj2 = obj ∧ st2.objects = st.objects := by
  unfold scheduleUploads at h
  by_cases hc : st.backendStores ≠ [] ∧ ¬ st.hasUploadScheduler
  · simp [hc] at h
  · simp only [if_neg hc] at h
    obtain ⟨h1, h2⟩ := Prod.mk.injEq .. ▸ Except.ok.injEq .. ▸ h
    exact ⟨h2.symm, by rw [← h1]⟩

theorem findFirstMaxStoreID_cons_ne_none (o : ImmutableObject) (rest : List ImmutableObject) :
    findFirstMaxStoreID (o :: rest) ≠ none := by
  unfold findFirstMaxStoreID
  cases findFirstMaxStoreID rest with
  | none => simp
  | some m => by_cases hc : m.storeID > o.storeID <;> simp [hc]

theorem string_mk_toList (s : String) : String.mk s.toList = s := rfl

theorem getObject_of_find (cs : ContentStore) (st : StoreState) (hsh d : String)
    (hno : ':' ∉ hsh.toList) (obj : ImmutableObject)
    (hf : findUniqueObject hsh d st.objects = some obj) :
    cs.getObject st (hsh ++ ":" ++ d) = .ok obj := by
  unfold ContentStore.getObject
  rw [toList_id_append, splitColon1_append _ _ hno]
  simp only [string_mk_toList, hf]

/-! Claim theorems. -/

/-- Claim C2 (code bug in the source): hash.py's `getHash` does not raise
`UnknownHashAlgorithm` for an unregistered algorithm name — the source says
`return UnknownHashAlgorithm(algo)` rather than `raise`, so the exception
instance is returned as an ordinary value (and any caller that applies the
result to content then crashes with `TypeError`).  For the registered name
"sha256" the hasher is returned as the claim states. -/
theorem getHash_unknown_returned_not_raised (s : HashFn) :
    getHash s "md5" = .errValue (.unknownHashAlgorithm "md5") ∧
    getHash s "sha256" = .fn s := by
  exact ⟨rfl, rfl⟩

/-- Claim C3 (code bug in the source): `ContentStore.storeObject` accepts the
`objectId` argument but never inspects it, so a supplied id that differs from
`hash + ":" + hexdigest(content)` is NOT rejected: the result is identical for
every supplied `objectId`, and at a concrete mismatching id the call succeeds
and stores under the computed id.  (The sibling implementation in
backends/localaxiom.py builds the rejection `RuntimeError` but forgets to
raise it, so it too accepts a mismatching id.) -/
theorem storeObject_ignores_objectId :
    (∀ (sha256 : HashFn) (cs : ContentStore) (st : StoreState) (content : Bytes)
        (contentType : String) (metadata : List (String × String))
        (created : Option Nat) (oidA oidB : Option String) (now : Nat),
      cs.storeObject sha256 st content contentType metadata created oidA now =
      cs.storeObject sha256 st content contentType metadata created oidB now) ∧
    ContentStore.storeObject (fun _ => "0ddd") { hash := "sha256" }
        { objects := [], nextID := 0, backendStores := [], hasUploadScheduler := false,
          pendingUploads := [], pendingMigrations := [] }
        [7] "text/plain" [] none (some "sha256:WRONG") 0 =
      .ok ({ objects := [{ hash := "sha256", contentDigest := "0ddd", content := [7],
                           contentType := "text/plain", created := 0, storeID := 0 }],
             nextID := 1, backendStores := [], hasUploadScheduler := false,
             pendingUploads := [], pendingMigrations := [] },
           "sha256:0ddd") := by
  exact ⟨fun _ _ _ _ _ _ _ _ _ _ => rfl, rfl⟩

/-- Claim C9: on a local backend containing no objects, `migrateTo` does not
return a Migration — the `findFirst` query yields None and the unconditional
`storeID` attribute access raises `AttributeError` — while on a non-empty
store it returns one, so a non-empty store is an implicit precondition. -/
theorem migrateTo_empty_store_fails (cs : ContentStore) (st : StoreState)
    (srcId : Nat) (dest : Option Nat) :
    (st.objects = [] → cs.migrateTo st srcId dest = .error .attributeError) ∧
    (st.objects ≠ [] → ∃ m, cs.migrateTo st srcId dest = .ok m) := by
  constructor
  · intro h
    unfold ContentStore.migrateTo
    rw [h]
    rfl
  · intro h
    unfold ContentStore.migrateTo
    cases hf : findFirstMaxStoreID st.objects with
    | none =>
      cases hobj : st.objects with
      | nil => exact absurd hobj h
      | cons o rest => rw [hobj] at hf; exact absurd hf (findFirstMaxStoreID_cons_ne_none o rest)
    | some m => exact ⟨_, rfl⟩

/-- Witness for C9: on the concrete empty store, `migrateTo` fails with
`AttributeError`. -/
theorem migrateTo_empty_store_fails_witness :
    ContentStore.migrateTo { hash := "sha256" }
      { objects := [], nextID := 0, backendStores := [], hasUploadScheduler := false,
        pendingUploads := [], pendingMigrations := [] } 0 none =
    .error .attributeError :=
  (migrateTo_empty_store_fails { hash := "sha256" }
    { objects := [], nextID := 0, backendStores := [], hasUploadScheduler := false,
      pendingUploads := [], pendingMigrations := [] } 0 none).1 rfl

/-- Claim C10: `ContentStore.getObject` on an id with no colon fails with the
generic `ValueError` coming from the tuple unpacking of `split`, not with
`NonexistentObject`; and a `NonexistentObject(objectId)` failure arises only
for ids that do split into `algo:digest` form with no matching row. -/
theorem getObject_malformed_id (cs : ContentStore) (st : StoreState) (objectId : String) :
    (':' ∉ objectId.toList → cs.getObject st objectId = .error .valueError) ∧
    (∀ oid2, cs.getObject st objectId = .error (.nonexistentObject oid2) →
      oid2 = objectId ∧
      ∃ h d, splitColon1 objectId.toList = some (h, d) ∧
        findUniqueObject (String.mk h) (String.mk d) st.objects = none) := by
  constructor
  · intro h
    unfold ContentStore.getObject
    rw [splitColon1_eq_none _ h]
  · intro oid2 h
    unfold ContentStore.getObject at h
    split at h
    · simp at h
    · next a b hs =>
      split at h
      · next hf =>
        simp only [Except.error.injEq, Err.nonexistentObject.injEq] at h
        exact ⟨h.symm, a, b, hs, hf⟩
      · simp at h

/-- Claim C1: whenever `ContentStore.storeObject(bytes, ct)` succeeds and
returns an objectId, `getObject` on that id succeeds and yields an object
whose content is exactly the stored bytes and whose contentType is ct (both
when a fresh row is created and when an existing row is updated in place). -/
theorem storeObject_getObject_roundtrip
    (sha256 : HashFn) (cs : ContentStore) (st st2 : StoreState) (content : Bytes)
    (contentType : String) (oid : String) (now : Nat)
    (h : cs.storeObject sha256 st content contentType [] none none now = .ok (st2, oid)) :
    ∃ obj, cs.getObject st2 oid = .ok obj ∧
      obj.content = content ∧ obj.contentType = contentType := by
  unfold ContentStore.storeObject at h
  split at h
  · simp at h
  · next st2p objp heq =>
    simp only [Except.ok.injEq, Prod.mk.injEq] at h
    obtain ⟨hst2, hoid⟩ := h
    subst hst2; subst hoid
    unfold ContentStore._storeObject at heq
    split at heq
    · simp at heq
    · split at heq
      · simp at heq
      · next hashFn hgh =>
        obtain ⟨hcs, hfn⟩ := getHash_fn_elim sha256 cs.hash hashFn hgh
        split at heq
        · next objects2 obj0 hupd =>
          obtain ⟨hobj, hobjects⟩ := scheduleUploads_ok _ _ _ _ _ heq
          obtain ⟨hfind, x, hx⟩ :=
            updateFirstObject_some cs.hash (hashFn content)
              (fun o => { o with contentType := contentType, created := none.getD now,
                                 content := content })
              (fun _ => ⟨rfl, rfl⟩) st.objects objects2 obj0 hupd
          obtain ⟨hkh, hkd⟩ := findUniqueObject_some_key _ _ _ _ hfind
          refine ⟨obj0, ?_, ?_, ?_⟩
          · have hoid2 : objp.objectId = obj0.hash ++ ":" ++ obj0.contentDigest := by
              rw [hobj]; rfl
            rw [hoid2, hkh, hkd]
            refine getObject_of_find cs st2p cs.hash (hashFn content) ?_ obj0 ?_
            · rw [hcs]; decide
            · rw [hobjects]; exact hfind
          · rw [hx]
          · rw [hx]
        · next hupd =>
          obtain ⟨hobj, hobjects⟩ := scheduleUploads_ok _ _ _ _ _ heq
          have hfindnone := updateFirstObject_none cs.hash (hashFn content) _ st.objects hupd
          refine ⟨objp, ?_, ?_, ?_⟩
          · have hoid2 : objp.objectId = cs.hash ++ ":" ++ hashFn content := by
              rw [hobj]; rfl
            rw [hoid2]
            refine getObject_of_find cs st2p cs.hash (hashFn content) ?_ objp ?_
            · rw [hcs]; decide
            · rw [hobjects, hobj]
              exact findUniqueObject_append_one cs.hash (hashFn content) st.objects _
                hfindnone ⟨rfl, rfl⟩
          · rw [hobj]
          · rw [hobj]

/-- Witness for C1: storing the concrete bytes 1,2,3 with content type
"text/plain" in the concrete empty store round-trips through `getObject`. -/
theorem storeObject_getObject_roundtrip_witness :
    ∃ obj, ContentStore.getObject { hash := "sha256" }
        { objects := [{ hash := "sha256", contentDigest := "0abc", content := [1, 2, 3],
                        contentType := "text/plain", created := 5, storeID := 0 }],
          nextID := 1, backendStores := [], hasUploadScheduler := false,
          pendingUploads := [], pendingMigrations := [] } "sha256:0abc" = .ok obj ∧
      obj.content = [1, 2, 3] ∧ obj.contentType = "text/plain" :=
  storeObject_getObject_roundtrip (fun _ => "0abc") { hash := "sha256" }
    { objects := [], nextID := 0, backendStores := [], hasUploadScheduler := false,
      pendingUploads := [], pendingMigrations := [] }
    { objects := [{ hash := "sha256", contentDigest := "0abc", content := [1, 2, 3],
                    contentType := "text/plain", created := 5, storeID := 0 }],
      nextID := 1, backendStores := [], hasUploadScheduler := false,
      pendingUploads := [], pendingMigrations := [] }
    [1, 2, 3] "text/plain" "sha256:0abc" 5 rfl

/-- Witness for C10: the concrete colon-free id "abc" fails with `ValueError`
on the concrete empty store. -/
theorem getObject_malformed_id_witness :
    ContentStore.getObject { hash := "sha256" }
      { objects := [], nextID := 0, backendStores := [], hasUploadScheduler := false,
        pendingUploads := [], pendingMigrations := [] } "abc" =
    .error .valueError :=
  (getObject_malformed_id { hash := "sha256" }
    { objects := [], nextID := 0, backendStores := [], hasUploadScheduler := false,
      pendingUploads := [], pendingMigrations := [] } "abc").1 (by decide)

/-- Counterexample for C5: at a concrete failed upload attempt (row scheduled
at 0, attempt made at time 300), the row's new `scheduled` is 420 = attempt
time + 2 minutes, not 120 = previous `scheduled` + 2 minutes, because
`_nextAttempt` returns `Time() + timedelta(minutes=2)` — two minutes after
NOW, not after the previous scheduled time. -/
theorem attemptUpload_backoff_counterexample :
    (_PendingUpload.attemptUpload { hash := "sha256" }
        { objects := [], nextID := 0, backendStores := [], hasUploadScheduler := false,
          pendingUploads := [], pendingMigrations := [] }
        { objectId := "sha256:d", backend := 0, scheduled := 0 } (.ok "x") 300).1 =
      some { objectId := "sha256:d", backend := 0, scheduled := 420 } ∧
    (420 : Nat) ≠ 0 + 120 := by
  exact ⟨rfl, by decide⟩

/-- Claim C5 (amended): when `attemptUpload` fails the row remains in the
store with `scheduled` advanced to the time of the failed attempt plus the
2-minute back-off (`now + 120`, via `_nextAttempt`), not to the previous
`scheduled` plus 2 minutes; on success the row is deleted. -/
theorem attemptUpload_reschedule_semantics (cs : ContentStore) (st : StoreState)
    (u : PendingUploadRow) (backendResult : Except Err String) (now : Nat) :
    (∀ e, uploadAttemptOutcome cs st u backendResult = .error e →
      _PendingUpload.attemptUpload cs st u backendResult now =
        (some { u with scheduled := now + 120 }, .ok ())) ∧
    (uploadAttemptOutcome cs st u backendResult = .ok () →
      _PendingUpload.attemptUpload cs st u backendResult now = (none, .ok ())) := by
  constructor
  · intro e he
    unfold _PendingUpload.attemptUpload
    rw [he]
    rfl
  · intro hok
    unfold _PendingUpload.attemptUpload
    rw [hok]

/-- Witness for C5 (amended): the concrete failed attempt at time 300 leaves
the row rescheduled at 420 and the returned Deferred succeeding. -/
theorem attemptUpload_reschedule_semantics_witness :
    _PendingUpload.attemptUpload { hash := "sha256" }
      { objects := [], nextID := 0, backendStores := [], hasUploadScheduler := false,
        pendingUploads := [], pendingMigrations := [] }
      { objectId := "sha256:e", backend := 1, scheduled := 7 } (.ok "x") 300 =
    (some { objectId := "sha256:e", backend := 1, scheduled := 420 }, .ok ()) :=
  (attemptUpload_reschedule_semantics { hash := "sha256" }
    { objects := [], nextID := 0, backendStores := [], hasUploadScheduler := false,
      pendingUploads := [], pendingMigrations := [] }
    { objectId := "sha256:e", backend := 1, scheduled := 7 } (.ok "x") 300).1
    (.nonexistentObject "sha256:e") rfl

/-- Counterexample for C6: at concrete failing inputs, both
`attemptMigration` and `attemptUpload` complete successfully — the errback
records the failure and returns None, which CONSUMES the error, so the caller
of `attemptUpload` and `attemptMigration` observes success, not the failure
the claim says is re-raised. -/
theorem attempt_error_not_reraised_counterexample :
    (PendingMigration.attemptMigration
        { obj := { hash := "sha256", contentDigest := "0abc", content := [1],
                   contentType := "text/plain", created := 0, storeID := 0 },
          lastFailure := none }
        (.error .corruptObject)).2 = .ok () ∧
    (_PendingUpload.attemptUpload { hash := "sha256" }
        { objects := [], nextID := 0, backendStores := [], hasUploadScheduler := false,
          pendingUploads := [], pendingMigrations := [] }
        { objectId := "sha256:f", backend := 0, scheduled := 0 } (.ok "x") 10).2 =
      .ok () := by
  exact ⟨rfl, rfl⟩

/-- Claim C6 (amended): every error inside `attemptMigration` is recorded
(the traceback text is persisted in the tracking row's `lastFailure` and the
row is kept) and every error inside `attemptUpload` reschedules its row, but
in both cases the error is consumed: the Deferred returned to the caller
always fires with success. -/
theorem attempt_records_and_consumes_errors (row : PendingMigrationRow)
    (migrateResult : Except Err Unit) (cs : ContentStore) (st : StoreState)
    (u : PendingUploadRow) (backendResult : Except Err String) (now : Nat) :
    (PendingMigration.attemptMigration row migrateResult).2 = .ok () ∧
    (∀ e, migrateResult = .error e →
      (PendingMigration.attemptMigration row migrateResult).1 =
        some { row with lastFailure := some (failureText e) }) ∧
    (migrateResult = .ok () →
      (PendingMigration.attemptMigration row migrateResult).1 = none) ∧
    (_PendingUpload.attemptUpload cs st u backendResult now).2 = .ok () ∧
    (∀ e, uploadAttemptOutcome cs st u backendResult = .error e →
      (_PendingUpload.attemptUpload cs st u backendResult now).1 =
        some { u with scheduled := now + 120 }) := by
  refine ⟨?_, ?_, ?_, ?_, ?_⟩
  · cases migrateResult with
    | ok v => rfl
    | error e => rfl
  · intro e he; rw [he]; rfl
  · intro he; rw [he]; rfl
  · unfold _PendingUpload.attemptUpload
    cases uploadAttemptOutcome cs st u backendResult with
    | ok v => rfl
    | error e => rfl
  · intro e he
    unfold _PendingUpload.attemptUpload
    rw [he]
    rfl

/-- Witness for C6 (amended): at a concrete failing migration the row keeps
the recorded failure text and the Deferred fires with success. -/
theorem attempt_records_and_consumes_errors_witness :
    PendingMigration.attemptMigration
      { obj := { hash := "sha256", contentDigest := "0abc", content := [1],
                 contentType := "text/plain", created := 0, storeID := 0 },
        lastFailure := none }
      (.error (.noGoodCopies "sha256:0abc")) =
    (some { obj := { hash := "sha256", contentDigest := "0abc", content := [1],
                     contentType := "text/plain", created := 0, storeID := 0 },
            lastFailure := some "NoGoodCopies: sha256:0abc" }, .ok ()) := by
  have h := attempt_records_and_consumes_errors
    { obj := { hash := "sha256", contentDigest := "0abc", content := [1],
               contentType := "text/plain", created := 0, storeID := 0 },
      lastFailure := none }
    (.error (.noGoodCopies "sha256:0abc")) { hash := "sha256" }
    { objects := [], nextID := 0, backendStores := [], hasUploadScheduler := false,
      pendingUploads := [], pendingMigrations := [] }
    { objectId := "sha256:g", backend := 0, scheduled := 0 } (.ok "x") 0
  have h1 := h.1
  have h2 := h.2.1 (.noGoodCopies "sha256:0abc") rfl
  exact Prod.ext h2 h1

/-- Whether an error is a `NonexistentObject` — the only class trapped by the
coordinator's fallback errback. -/
def isNonexistentErr : Err → Bool
  | .nonexistentObject _ => true
  | _ => false

theorem getSiblingLoop_all_missing (sha256 : HashFn) (cs : ContentStore) (st : StoreState)
    (objectId : String) (now : Nat) (l : List (Except Err RemoteObject))
    (h : ∀ r ∈ l, isNonexistentResp r = true) :
    getSiblingLoop sha256 cs st objectId now l =
      (.error (.nonexistentObject objectId), l.length) := by
  induction l with
  | nil => rfl
  | cons r rest ih =>
    have hr : isNonexistentResp r = true := h r (List.mem_cons_self r rest)
    have hrest : ∀ x ∈ rest, isNonexistentResp x = true :=
      fun x hx => h x (List.mem_cons_of_mem r hx)
    simp [getSiblingLoop, hr, ih hrest]

theorem getSiblingLoop_first_hit (sha256 : HashFn) (cs : ContentStore) (st : StoreState)
    (objectId : String) (now : Nat) (pre : List (Except Err RemoteObject))
    (resp : Except Err RemoteObject) (post : List (Except Err RemoteObject))
    (hpre : ∀ r ∈ pre, isNonexistentResp r = true)
    (hresp : isNonexistentResp resp = false) :
    getSiblingLoop sha256 cs st objectId now (pre ++ resp :: post) =
      (siblingOutcome sha256 cs st now resp, pre.length + 1) := by
  induction pre with
  | nil => simp [getSiblingLoop, hresp]
  | cons r rest ih =>
    have hr : isNonexistentResp r = true := hpre r (List.mem_cons_self r rest)
    have hrest : ∀ x ∈ rest, isNonexistentResp x = true :=
      fun x hx => hpre x (List.mem_cons_of_mem r hx)
    simp [getSiblingLoop, hr, List.append_eq, ih hrest]

/-- Claim C4: the coordinator's `getSiblingObject` tries the local store
first, then every sibling backend, then every cloud/deferred backend, in
configured order: a `NonexistentObject` failure moves to the next backend,
any other failure surfaces immediately, the first retrieved object is taken
(imported locally) with no later backend consulted (the count says how many
remote backends were consulted), and when the local store and every backend
miss, the overall result is `NonexistentObject(objectId)`. -/
theorem getSiblingObject_search_order (sha256 : HashFn) (cs : ContentStore)
    (st : StoreState) (objectId : String) (now : Nat)
    (siblingStores backendStores : List (Except Err RemoteObject)) :
    (∀ obj, cs.getObject st objectId = .ok obj →
      cs.getSiblingObject sha256 st objectId now siblingStores backendStores =
        (.ok (st, obj), 0)) ∧
    (∀ e, cs.getObject st objectId = .error e → isNonexistentErr e = false →
      cs.getSiblingObject sha256 st objectId now siblingStores backendStores =
        (.error e, 0)) ∧
    (∀ oid0, cs.getObject st objectId = .error (.nonexistentObject oid0) →
      ((∀ r ∈ siblingStores ++ backendStores, isNonexistentResp r = true) →
        cs.getSiblingObject sha256 st objectId now siblingStores backendStores =
          (.error (.nonexistentObject objectId),
           (siblingStores ++ backendStores).length)) ∧
      (∀ pre resp post, siblingStores ++ backendStores = pre ++ resp :: post →
        (∀ r ∈ pre, isNonexistentResp r = true) → isNonexistentResp resp = false →
        cs.getSiblingObject sha256 st objectId now siblingStores backendStores =
          (siblingOutcome sha256 cs st now resp, pre.length + 1))) := by
  refine ⟨?_, ?_, ?_⟩
  · intro obj hobj
    unfold ContentStore.getSiblingObject
    rw [hobj]
  · intro e he hne
    unfold ContentStore.getSiblingObject
    rw [he]
    cases e with
    | nonexistentObject oid => simp [isNonexistentErr] at hne
    | unknownHashAlgorithm a => rfl
    | corruptObject => rfl
    | notImplementedError => rfl
    | typeError => rfl
    | valueError => rfl
    | attributeError => rfl
    | runtimeError => rfl
    | noGoodCopies a => rfl
    | unexpectedDigest a => rfl
    | backendError a => rfl
  · intro oid0 he
    constructor
    · intro hall
      unfold ContentStore.getSiblingObject
      rw [he]
      exact getSiblingLoop_all_missing sha256 cs st objectId now _ hall
    · intro pre resp post hsplit hpre hresp
      unfold ContentStore.getSiblingObject
      rw [he, hsplit]
      exact getSiblingLoop_first_hit sha256 cs st objectId now pre resp post hpre hresp

/-- Witness for C4: with an empty local store, one missing sibling and one
backend holding the object, the coordinator consults both in order, imports
the backend's copy into the local store and returns the imported object. -/
theorem getSiblingObject_search_order_witness :
    ContentStore.getSiblingObject (fun _ => "0abc") { hash := "sha256" }
      { objects := [], nextID := 0, backendStores := [], hasUploadScheduler := false,
        pendingUploads := [], pendingMigrations := [] }
      "sha256:0abc" 3
      [.error (.nonexistentObject "sha256:0abc")]
      [.ok { content := [9], contentType := "text/css", metadata := [], created := 2 }] =
    (.ok ({ objects := [{ hash := "sha256", contentDigest := "0abc", content := [9],
                          contentType := "text/css", created := 2, storeID := 0 }],
            nextID := 1, backendStores := [], hasUploadScheduler := false,
            pendingUploads := [], pendingMigrations := [] },
          { hash := "sha256", contentDigest := "0abc", content := [9],
            contentType := "text/css", created := 2, storeID := 0 }), 2) := by
  have h := ((getSiblingObject_search_order (fun _ => "0abc") { hash := "sha256" }
    { objects := [], nextID := 0, backendStores := [], hasUploadScheduler := false,
      pendingUploads := [], pendingMigrations := [] }
    "sha256:0abc" 3
    [.error (.nonexistentObject "sha256:0abc")]
    [.ok { content := [9], contentType := "text/css", metadata := [], created := 2 }]).2.2
    "sha256:0abc" rfl).2
    [.error (.nonexistentObject "sha256:0abc")]
    (.ok { content := [9], contentType := "text/css", metadata := [], created := 2 })
    [] rfl (by intro r hr; simp at hr; rw [hr]; rfl) rfl
  exact h.trans rfl

theorem findFirstInRange_bounds (current end_ : Int) (l : List ImmutableObject)
    (o : ImmutableObject) (h : findFirstInRange current end_ l = some o) :
    current < (o.storeID : Int) ∧ (o.storeID : Int) ≤ end_ := by
  induction l with
  | nil => cases h
  | cons x rest ih =>
    unfold findFirstInRange at h
    split at h
    · next hc =>
      split at h
      · cases h; exact hc
      · next m hrec =>
        split at h
        · cases h; exact hc
        · cases h; exact ih hrec
    · exact ih h

theorem nextObject_spec (st : StoreState) (m : Migration) (st2 : StoreState)
    (m2 : Migration) (row : PendingMigrationRow)
    (h : LocalStoreMigration._nextObject st m = some (st2, m2, row)) :
    m.current < (row.obj.storeID : Int) ∧ (row.obj.storeID : Int) ≤ m.end_ ∧
    m2.current = (row.obj.storeID : Int) ∧ m2.end_ = m.end_ ∧
    st2.pendingMigrations = st.pendingMigrations ++ [row] ∧
    st2.objects = st.objects := by
  unfold LocalStoreMigration._nextObject at h
  cases hf : findFirstInRange m.current m.end_ st.objects with
  | none => rw [hf] at h; cases h
  | some obj =>
    rw [hf] at h
    simp only [Option.some.injEq, Prod.mk.injEq] at h
    obtain ⟨h1, h2, h3⟩ := h
    obtain ⟨hb1, hb2⟩ := findFirstInRange_bounds m.current m.end_ st.objects obj hf
    subst h3
    refine ⟨hb1, hb2, ?_, ?_, ?_, ?_⟩
    · rw [← h2]
    · rw [← h2]
    · rw [← h1]
    · rw [← h1]

theorem runEnqueue_spec (fuel : Nat) : ∀ (st : StoreState) (m : Migration),
    (∀ row ∈ (LocalStoreMigration.runEnqueue fuel st m).1.pendingMigrations,
      row ∈ st.pendingMigrations ∨
        (m.current < (row.obj.storeID : Int) ∧ (row.obj.storeID : Int) ≤ m.end_)) ∧
    m.current ≤ (LocalStoreMigration.runEnqueue fuel st m).2.current ∧
    (LocalStoreMigration.runEnqueue fuel st m).2.end_ = m.end_ := by
  induction fuel with
  | zero =>
    intro st m
    exact ⟨fun row hrow => Or.inl hrow, le_refl _, rfl⟩
  | succ n ih =>
    intro st m
    unfold LocalStoreMigration.runEnqueue
    cases hno : LocalStoreMigration._nextObject st m with
    | none => exact ⟨fun row hrow => Or.inl hrow, le_refl _, rfl⟩
    | some t =>
      obtain ⟨st2, m2, row⟩ := t
      obtain ⟨hb1, hb2, hcur, hend, hpm, _hobj⟩ := nextObject_spec st m st2 m2 row hno
      obtain ⟨ih1, ih2, ih3⟩ := ih st2 m2
      refine ⟨?_, ?_, ?_⟩
      · intro r hr
        rcases ih1 r hr with hmem | hbound
        · rw [hpm] at hmem
          rcases List.mem_append.mp hmem with hmem2 | hmem2
          · exact Or.inl hmem2
          · right
            have : r = row := List.mem_singleton.mp hmem2
            rw [this]
            exact ⟨hb1, hb2⟩
        · right
          refine ⟨lt_trans hb1 ?_, ?_⟩
          · rw [← hcur]; exact hbound.1
          · rw [← hend]; exact hbound.2
      · calc m.current ≤ m2.current := by rw [hcur]; exact le_of_lt hb1
          _ ≤ (LocalStoreMigration.runEnqueue n st2 m2).2.current := ih2
      · rw [ih3, hend]

/-- Claim C7: every `PendingMigration` row created by running a migration
tracks an object whose `storeID` lies in the half-open range
`(current, end]` — in particular an object with `storeID > end` (created
after the migration snapshot) is never enqueued — `current` is monotonically
non-decreasing across the run, and `_nextObject` advances `current` to the
enqueued object's `storeID` in the same transaction that creates the tracking
row. -/
theorem migration_snapshot_invariant (fuel : Nat) (st : StoreState) (m : Migration) :
    (∀ row ∈ (LocalStoreMigration.runEnqueue fuel st m).1.pendingMigrations,
      row ∈ st.pendingMigrations ∨
        (m.current < (row.obj.storeID : Int) ∧ (row.obj.storeID : Int) ≤ m.end_)) ∧
    m.current ≤ (LocalStoreMigration.runEnqueue fuel st m).2.current ∧
    (∀ st2 m2 row, LocalStoreMigration._nextObject st m = some (st2, m2, row) →
      m2.current = (row.obj.storeID : Int) ∧
      st2.pendingMigrations = st.pendingMigrations ++ [row] ∧
      m.current < (row.obj.storeID : Int) ∧ (row.obj.storeID : Int) ≤ m.end_) := by
  obtain ⟨h1, h2, _h3⟩ := runEnqueue_spec fuel st m
  refine ⟨h1, h2, ?_⟩
  intro st2 m2 row h
  obtain ⟨hb1, hb2, hcur, _hend, hpm, _hobj⟩ := nextObject_spec st m st2 m2 row h
  exact ⟨hcur, hpm, hb1, hb2⟩

/-- Witness for C7: running the enqueue loop on a concrete store holding one
object outside the snapshot range creates no tracking row and leaves
`current` unchanged. -/
theorem migration_snapshot_invariant_witness :
    (∀ row ∈ (LocalStoreMigration.runEnqueue 1
        { objects := [{ hash := "sha256", contentDigest := "0abc", content := [1],
                        contentType := "text/plain", created := 0, storeID := 9 }],
          nextID := 10, backendStores := [], hasUploadScheduler := false,
          pendingUploads := [], pendingMigrations := [] }
        { source := 0, destination := none, start := 0, current := -1,
          end_ := 3 }).1.pendingMigrations,
      row ∈ ([] : List PendingMigrationRow) ∨
        ((-1 : Int) < (row.obj.storeID : Int) ∧ (row.obj.storeID : Int) ≤ 3)) :=
  (migration_snapshot_invariant 1
    { objects := [{ hash := "sha256", contentDigest := "0abc", content := [1],
                    contentType := "text/plain", created := 0, storeID := 9 }],
      nextID := 10, backendStores := [], hasUploadScheduler := false,
      pendingUploads := [], pendingMigrations := [] }
    { source := 0, destination := none, start := 0, current := -1, end_ := 3 }).1

/-- Keep the first good copy: the loop only records a copy as good when none
is held yet. -/
def goodOr : Option VerifyCopy → Option VerifyCopy → Option VerifyCopy
  | some g, _ => some g
  | none, o => o

theorem verifyLoop_no_bad_reports (hashFunc : HashFn) (expected objectId : String)
    (pairs : List (Nat × Option VerifyCopy))
    (hrep : ∀ p ∈ pairs, ∀ c, p.2 = some c → c.contentDigest = expected) :
    ∀ corrupt goodObj,
      verifyLoop hashFunc expected objectId pairs corrupt goodObj =
        .ok (corrupt ++ badBackends hashFunc expected pairs,
             goodOr goodObj (firstGoodCopy hashFunc expected pairs)) := by
  induction pairs with
  | nil =>
    intro corrupt goodObj
    cases goodObj <;> simp [verifyLoop, badBackends, firstGoodCopy, goodOr]
  | cons p rest ih =>
    have hrest : ∀ q ∈ rest, ∀ c, q.2 = some c → c.contentDigest = expected :=
      fun q hq => hrep q (List.mem_cons_of_mem p hq)
    intro corrupt goodObj
    obtain ⟨b, oc⟩ := p
    cases oc with
    | none =>
      simp only [verifyLoop, badBackends, firstGoodCopy, List.filterMap_cons]
      rw [ih hrest (corrupt ++ [b]) goodObj]
      simp [badBackends]
    | some c =>
      have hcd : c.contentDigest = expected :=
        hrep (b, some c) (List.mem_cons_self _ rest) c rfl
      simp only [verifyLoop, hcd, ne_eq, not_true_eq_false, if_false, ite_not]
      by_cases hh : hashFunc c.content = expected
      · cases goodObj with
        | none =>
          simp only [if_pos hh] at *
          rw [ih hrest corrupt (some c)]
          simp [badBackends, firstGoodCopy, hh, goodOr]
        | some g =>
          simp only [if_pos hh] at *
          rw [ih hrest corrupt (some g)]
          simp [badBackends, firstGoodCopy, hh, goodOr]
      · simp only [if_neg hh]
        rw [ih hrest (corrupt ++ [b]) goodObj]
        simp [badBackends, firstGoodCopy, hh]

theorem verifyLoop_bad_report (hashFunc : HashFn) (expected objectId : String)
    (pairs : List (Nat × Option VerifyCopy))
    (hbad : ∃ p ∈ pairs, ∃ c, p.2 = some c ∧ c.contentDigest ≠ expected) :
    ∀ corrupt goodObj,
      verifyLoop hashFunc expected objectId pairs corrupt goodObj =
        .error (.unexpectedDigest objectId) := by
  induction pairs with
  | nil => obtain ⟨p, hp, _⟩ := hbad; cases hp
  | cons p rest ih =>
    intro corrupt goodObj
    obtain ⟨b, oc⟩ := p
    obtain ⟨q, hq, c0, hc0, hne0⟩ := hbad
    rcases List.mem_cons.mp hq with rfl | hq2
    · cases hc0
      simp [verifyLoop, hne0]
    · have hbad2 : ∃ p ∈ rest, ∃ c, p.2 = some c ∧ c.contentDigest ≠ expected :=
        ⟨q, hq2, c0, hc0, hne0⟩
      cases oc with
      | none => simp only [verifyLoop]; exact ih hbad2 _ _
      | some c =>
        by_cases hcd : c.contentDigest = expected
        · simp only [verifyLoop, hcd, ne_eq, not_true_eq_false, if_false, ite_not]
          by_cases hh : hashFunc c.content = expected
          · cases goodObj <;> simp only [if_pos hh] <;> exact ih hbad2 _ _
          · simp only [if_neg hh]; exact ih hbad2 _ _
        · simp [verifyLoop, hcd]

theorem firstGoodCopy_of_exists (hashFunc : HashFn) (expected : String)
    (pairs : List (Nat × Option VerifyCopy))
    (h : ∃ p ∈ pairs, ∃ c, p.2 = some c ∧ hashFunc c.content = expected) :
    ∃ g, firstGoodCopy hashFunc expected pairs = some g := by
  induction pairs with
  | nil => obtain ⟨p, hp, _⟩ := h; cases hp
  | cons p rest ih =>
    obtain ⟨b, oc⟩ := p
    obtain ⟨q, hq, c0, hc0, hh0⟩ := h
    rcases List.mem_cons.mp hq with rfl | hq2
    · cases hc0
      simp [firstGoodCopy, hh0]
    · cases oc with
      | none => simp only [firstGoodCopy]; exact ih ⟨q, hq2, c0, hc0, hh0⟩
      | some c =>
        by_cases hh : hashFunc c.content = expected
        · exact ⟨c, by simp [firstGoodCopy, hh]⟩
        · simp only [firstGoodCopy, if_neg hh]; exact ih ⟨q, hq2, c0, hc0, hh0⟩

theorem firstGoodCopy_of_none (hashFunc : HashFn) (expected : String)
    (pairs : List (Nat × Option VerifyCopy))
    (h : ∀ p ∈ pairs, ∀ c, p.2 = some c → hashFunc c.content ≠ expected) :
    firstGoodCopy hashFunc expected pairs = none := by
  induction pairs with
  | nil => rfl
  | cons p rest ih =>
    have hrest : ∀ q ∈ rest, ∀ c, q.2 = some c → hashFunc c.content ≠ expected :=
      fun q hq => h q (List.mem_cons_of_mem p hq)
    obtain ⟨b, oc⟩ := p
    cases oc with
    | none => simp only [firstGoodCopy]; exact ih hrest
    | some c =>
      have hc : hashFunc c.content ≠ expected :=
        h (b, some c) (List.mem_cons_self _ rest) c rfl
      simp only [firstGoodCopy, if_neg hc]
      exact ih hrest

/-- Claim C8: in a verification migration (`destination` null), provided no
backend reports a wrong `contentDigest`: when some retrieved copy's bytes
hash to the expected digest, the result is exactly one repair `storeObject`
call per missing-or-corrupt backend, carrying the first good copy's content
and the expected objectId (and a good copy is guaranteed to be found); when a
backend DOES report a `contentDigest` different from the expected digest the
whole verification fails with `UnexpectedDigest(objectId)`; and when no
retrieved copy's bytes hash to the expected digest it fails with
`NoGoodCopies(objectId)`. -/
theorem verify_protocol (hashFunc : HashFn) (expected objectId : String)
    (pairs : List (Nat × Option VerifyCopy)) :
    ((∀ p ∈ pairs, ∀ c, p.2 = some c → c.contentDigest = expected) →
      (∀ g, firstGoodCopy hashFunc expected pairs = some g →
        gotContents hashFunc expected objectId pairs =
          .ok ((badBackends hashFunc expected pairs).map (fun b =>
            { backend := b, content := g.content, contentType := g.contentType,
              created := g.created, objectId := objectId }))) ∧
      ((∃ p ∈ pairs, ∃ c, p.2 = some c ∧ hashFunc c.content = expected) →
        ∃ g, firstGoodCopy hashFunc expected pairs = some g) ∧
      ((∀ p ∈ pairs, ∀ c, p.2 = some c → hashFunc c.content ≠ expected) →
        gotContents hashFunc expected objectId pairs =
          .error (.noGoodCopies objectId))) ∧
    ((∃ p ∈ pairs, ∃ c, p.2 = some c ∧ c.contentDigest ≠ expected) →
      gotContents hashFunc expected objectId pairs =
        .error (.unexpectedDigest objectId)) := by
  constructor
  · intro hrep
    have hloop := verifyLoop_no_bad_reports hashFunc expected objectId pairs hrep [] none
    refine ⟨?_, ?_, ?_⟩
    · intro g hg
      unfold gotContents
      rw [hloop, hg]
      simp [goodOr]
    · intro hex
      exact firstGoodCopy_of_exists hashFunc expected pairs hex
    · intro hnone
      unfold gotContents
      rw [hloop, firstGoodCopy_of_none hashFunc expected pairs hnone]
      simp [goodOr]
  · intro hbad
    unfold gotContents
    rw [verifyLoop_bad_report hashFunc expected objectId pairs hbad [] none]

/-- Witness for C8: a concrete verification with a good source copy, a
missing sibling and a byte-corrupt backend issues exactly the two repair
calls, for the missing and the corrupt backend, with the good content and the
expected objectId. -/
theorem verify_protocol_witness :
    gotContents (fun bs => if bs = [1] then "0d" else "0x") "0d" "sha256:0d"
      [(0, some { contentDigest := "0d", contentType := "text/plain", created := 7,
                  content := [1] }),
       (1, none),
       (2, some { contentDigest := "0d", contentType := "text/plain", created := 9,
                  content := [2] })] =
    .ok [{ backend := 1, content := [1], contentType := "text/plain", created := 7,
           objectId := "sha256:0d" },
         { backend := 2, content := [1], contentType := "text/plain", created := 7,
           objectId := "sha256:0d" }] := by
  have h := ((verify_protocol (fun bs => if bs = [1] then "0d" else "0x") "0d" "sha256:0d"
    [(0, some { contentDigest := "0d", contentType := "text/plain", created := 7,
                content := [1] }),
     (1, none),
     (2, some { contentDigest := "0d", contentType := "text/plain", created := 9,
                content := [2] })]).1 ?_).1
    { contentDigest := "0d", contentType := "text/plain", created := 7, content := [1] }
    rfl
  · exact h.trans rfl
  · intro p hp c hc
    simp only [List.mem_cons, List.not_mem_nil, or_false] at hp
    rcases hp with rfl | rfl | rfl
    · cases hc; rfl
    · cases hc
    · cases hc; rfl

end Entropy
